import Mathlib

/-!
Shallow embedding of the Dusky STT daemon
(`src/user_scripts/tts_stt/dusky_parakeet/dusky_stt_main.py`).

The daemon reads newline-delimited audio-file paths from a named pipe
(`FifoReader`), pushes them through a bounded FIFO queue
(`queue.Queue(maxsize=QUEUE_SIZE)`), and a main worker loop
(`DuskySTTDaemon.start`) pops items, lazily loads the inference model
(`get_model`), transcribes (`transcribe`), evicts the model after an idle
timeout (`check_idle`), and cleans up process artifacts on shutdown
(`stop` / `cleanup`).

External collaborators (the onnx_asr model's `recognize`, the `wl-copy`
output sink, the `notify-send` notification sink) are parameters of the
embedding; observable interactions are recorded in an effect trace.
Python strings are embedded as `List Char` so that the string operations
(`strip`, `splitlines`) compute in the kernel; wall-clock times are
embedded as integers (the claims only compare durations against the
10-second idle timeout).
-/

namespace Dusky

/-- A Python string, as its sequence of characters. -/
abbrev PyStr := List Char

/-- `IDLE_TIMEOUT = 10.0` from the configuration section. -/
def IDLE_TIMEOUT : Int := 10

/-- `QUEUE_SIZE = 5` from the configuration section. -/
def QUEUE_SIZE : Nat := 5

/-- ASCII whitespace as recognized by Python's `str.strip` and
`str.splitlines` (the pipe protocol never carries the wider Unicode
whitespace, so the ASCII set is the relevant one). -/
def pyIsSpace (c : Char) : Bool :=
  c = ' ' || c = '\t' || c = '\n' || c = '\r' || c = '\x0b' || c = '\x0c'

/-- Python `str.strip()`: remove whitespace from both ends. -/
def pyStrip (l : PyStr) : PyStr :=
  ((l.dropWhile pyIsSpace).reverse.dropWhile pyIsSpace).reverse

/-- Split a character sequence at every `'\n'` (the separators are not
kept; a trailing `'\n'` contributes a final empty piece). -/
def splitOnNl : PyStr → List PyStr
  | [] => [[]]
  | c :: rest =>
      match splitOnNl rest with
      | [] => [[]]
      | line :: lines =>
          if c = '\n' then [] :: line :: lines
          else (c :: line) :: lines

/-- Python `str.splitlines()` restricted to the `'\n'` terminator (the
only one the pipe protocol uses): like splitting on `'\n'` but with no
empty trailing piece when the text ends in a newline, and `[]` on the
empty string. -/
def pySplitlines (l : PyStr) : List PyStr :=
  if l = [] then []
  else if l.getLast? = some '\n' then (splitOnNl l).dropLast
  else splitOnNl l

/-- The `FifoReader.run` parsing loop over one drained buffer:
`for path_str in data.splitlines(): clean_path = path_str.strip();
if clean_path: self.path_queue.put(clean_path)` — the list of paths
enqueued, in order.  The buffer is taken already decoded
(`decode('utf-8', errors='ignore')`). -/
def enqueuedPaths (data : PyStr) : List PyStr :=
  (pySplitlines data).filterMap fun pathStr =>
    let cleanPath := pyStrip pathStr
    if cleanPath ≠ [] then some cleanPath else none

/-- Observable effects of one worker iteration: model load, the inference
invocation itself, notifications (`notify-send`, critical or normal), and
the clipboard output (`wl-copy`). -/
inductive Effect where
  | loadModel : Effect
  | infer : PyStr → Effect
  | notifyCrit : PyStr → PyStr → Effect
  | notifyNormal : PyStr → PyStr → Effect
  | output : PyStr → Effect
deriving DecidableEq, Repr

/-- Is the effect a notification of any severity (`notify-send` call)? -/
def Effect.isNotification : Effect → Bool
  | .notifyCrit _ _ => true
  | .notifyNormal _ _ => true
  | _ => false

/-- Is the effect a critical-severity notification? -/
def Effect.isCritNotification : Effect → Bool
  | .notifyCrit _ _ => true
  | _ => false

/-- Is the effect a clipboard-output (`wl-copy`) call? -/
def Effect.isOutputEff : Effect → Bool
  | .output _ => true
  | _ => false

/-- Is the effect the inference invocation (`model.recognize`)? -/
def Effect.isInfer : Effect → Bool
  | .infer _ => true
  | _ => false

/-- Mutable state of `DuskySTTDaemon`: the `running` flag, whether
`self.model` is loaded (`model is not None`), the `last_used` timestamp,
and the `FifoReader.active` flag of the listener thread. -/
structure DaemonState where
  running : Bool
  model : Bool
  last_used : Int
  listenerActive : Bool
deriving DecidableEq, Repr

/-- State after `DuskySTTDaemon.__init__`: `running = True`, `model = None`,
`last_used = 0`, listener thread created with `active = True`. -/
def initState : DaemonState :=
  { running := true, model := false, last_used := 0, listenerActive := true }

/-- `DuskySTTDaemon.get_model`: set `last_used` to the current time, load
the model if absent, and return the updated state together with the
effects (a `loadModel` effect exactly when a load happened). -/
def get_model (now : Int) (st : DaemonState) : DaemonState × List Effect :=
  let st1 := { st with last_used := now }
  if st1.model then (st1, [])
  else ({ st1 with model := true }, [Effect.loadModel])

/-- `DuskySTTDaemon.check_idle`: if the model is loaded and
`now - last_used > IDLE_TIMEOUT`, drop the model reference. -/
def check_idle (now : Int) (st : DaemonState) : DaemonState :=
  if st.model ∧ now - st.last_used > IDLE_TIMEOUT then
    { st with model := false }
  else st

/-- Shape of the value returned by `model.recognize(filepath)`: either a
plain string or a list of strings (the worker takes the first element). -/
inductive RecResult where
  | str : PyStr → RecResult
  | list : List PyStr → RecResult
deriving DecidableEq, Repr

/-- Outcome of the inference invocation: a returned value, or a raised
exception carrying its message. -/
inductive InferOutcome where
  | ok : RecResult → InferOutcome
  | exn : PyStr → InferOutcome
deriving DecidableEq, Repr

/-- `(res[0] if isinstance(res, list) else res).strip()`: `none` models
the `IndexError` raised by `res[0]` on an empty list. -/
def extractText : RecResult → Option PyStr
  | .str s => some (pyStrip s)
  | .list [] => none
  | .list (x :: _) => some (pyStrip x)

/-- `DuskySTTDaemon.transcribe`.  The `try` block covers `get_model`, the
`recognize` call and the `res[0] ... .strip()` extraction; on any
exception there the model reference is dropped and one critical
notification is sent.  An empty extracted text returns with no further
effect.  Otherwise the text goes to `wl-copy` (success: one normal
notification; failure of the sink: one critical notification).
`recognize` is a parameter mapping the file path to the call's outcome;
`wlCopyOk` tells whether the `wl-copy` sink is present and succeeds. -/
def transcribe (recognize : PyStr → InferOutcome) (wlCopyOk : Bool)
    (now : Int) (st : DaemonState) (filepath : PyStr) :
    DaemonState × List Effect :=
  let (st1, loadEffs) := get_model now st
  match recognize filepath with
  | .exn msg =>
      ({ st1 with model := false },
       loadEffs ++ [Effect.infer filepath,
                    Effect.notifyCrit "Transcription Failed".data msg])
  | .ok res =>
      match extractText res with
      | none =>
          ({ st1 with model := false },
           loadEffs ++ [Effect.infer filepath,
                        Effect.notifyCrit "Transcription Failed".data
                          "list index out of range".data])
      | some text =>
          if text = [] then
            (st1, loadEffs ++ [Effect.infer filepath])
          else if wlCopyOk then
            (st1, loadEffs ++ [Effect.infer filepath, Effect.output text,
                               Effect.notifyNormal
                                 "Transcription Complete".data text])
          else
            (st1, loadEffs ++ [Effect.infer filepath,
                               Effect.notifyCrit
                                 "Output Failed (wl-copy)".data
                                 "wl-copy error".data])

/-- One observable event of the worker loop in `DuskySTTDaemon.start`:
a dequeued item (with whether `Path(filepath).exists()` holds at dequeue
time), or a `queue.Empty` timeout. -/
inductive WorkerEvent where
  | item : PyStr → Bool → WorkerEvent
  | timeout : WorkerEvent
deriving DecidableEq, Repr

/-- One iteration of the worker loop body in `DuskySTTDaemon.start`:
an item is transcribed only if its file still exists; on `queue.Empty`
the loop runs `check_idle`. -/
def workerStep (recognize : PyStr → InferOutcome) (wlCopyOk : Bool)
    (now : Int) (st : DaemonState) : WorkerEvent → DaemonState × List Effect
  | .item path fileExists =>
      if fileExists then transcribe recognize wlCopyOk now st path
      else (st, [])
  | .timeout => (check_idle now st, [])

/-- State of the bounded FIFO `queue.Queue(maxsize=QUEUE_SIZE)` together
with its history: `buf` is the current contents (front first), `enq` the
full enqueue history in order, `deq` the full dequeue history in order. -/
structure QueueState where
  buf : List PyStr
  enq : List PyStr
  deq : List PyStr
deriving DecidableEq, Repr

/-- `queue.Queue.put`: append at the back.  A `put` on a full queue
blocks the caller, so the transition exists only when
`buf.length < QUEUE_SIZE` (see `ReachableQ.put`). -/
def qput (s : QueueState) (x : PyStr) : QueueState :=
  { s with buf := s.buf ++ [x], enq := s.enq ++ [x] }

/-- `queue.Queue.get`: remove from the front (defined when the front is
known to be `x :: rest`). -/
def qget (s : QueueState) (x : PyStr) (rest : List PyStr) : QueueState :=
  { s with buf := rest, deq := s.deq ++ [x] }

/-- `put` as attempted by the producer: `none` when the queue is full,
modelling that the `FifoReader` thread blocks until a slot frees. -/
def tryPut (buf : List PyStr) (x : PyStr) : Option (List PyStr) :=
  if buf.length < QUEUE_SIZE then some (buf ++ [x]) else none

/-- Queue states reachable from the empty queue by interleaved producer
`put`s (enabled only below capacity — a full queue blocks the producer)
and consumer `get`s (enabled only on a nonempty queue). -/
inductive ReachableQ : QueueState → Prop
  | init : ReachableQ ⟨[], [], []⟩
  | put (s : QueueState) (x : PyStr) :
      ReachableQ s → s.buf.length < QUEUE_SIZE → ReachableQ (qput s x)
  | get (s : QueueState) (x : PyStr) (rest : List PyStr) :
      ReachableQ s → s.buf = x :: rest → ReachableQ (qget s x rest)

/-- Which of the three filesystem artifacts currently exist: the named
pipe `FIFO_PATH`, the PID marker `PID_FILE`, the readiness marker
`READY_FILE`. -/
structure FsState where
  fifoExists : Bool
  pidExists : Bool
  readyExists : Bool
deriving DecidableEq, Repr

/-- An actual file removal performed by `cleanup`
(`p.unlink(missing_ok=True)` removes the file only when it is present;
an absent file is tolerated and nothing happens). -/
inductive FsOp where
  | unlinkFifo : FsOp
  | unlinkPid : FsOp
  | unlinkReady : FsOp
deriving DecidableEq, Repr

/-- `DuskySTTDaemon.stop`: set `self.running = False` (nothing else; no
file is touched and no error can occur). -/
def daemonStop (st : DaemonState) : DaemonState :=
  { st with running := false }

/-- `DuskySTTDaemon.cleanup`: set `running = False` and
`fifo_reader.active = False`, then `unlink(missing_ok=True)` each of the
pipe, the PID marker and the readiness marker.  Returns the new daemon
state, the filesystem state (all three absent) and the removals actually
performed. -/
def cleanup (st : DaemonState) (fs : FsState) :
    DaemonState × FsState × List FsOp :=
  ({ st with running := false, listenerActive := false },
   ⟨false, false, false⟩,
   (if fs.fifoExists then [FsOp.unlinkFifo] else []) ++
   (if fs.pidExists then [FsOp.unlinkPid] else []) ++
   (if fs.readyExists then [FsOp.unlinkReady] else []))

/-- An event observed by the main loop in `DuskySTTDaemon.start`: a
dequeued item, a `queue.Empty` timeout, or a delivered termination
signal (whose handler calls `self.stop()`). -/
inductive LoopEvent where
  | item : PyStr → Bool → LoopEvent
  | timeout : LoopEvent
  | sigStop : LoopEvent
deriving DecidableEq, Repr

/-- The `while self.running:` loop of `DuskySTTDaemon.start`, driven by
a finite trace of timestamped events.  The loop exits as soon as
`running` is `false`; a termination signal runs `stop` (flips the flag)
and nothing else.  Returns the final state and the concatenated effect
trace. -/
def mainLoop (recognize : PyStr → InferOutcome) (wlCopyOk : Bool) :
    List (Int × LoopEvent) → DaemonState → DaemonState × List Effect
  | [], st => (st, [])
  | (now, ev) :: rest, st =>
      if st.running then
        match ev with
        | .sigStop => mainLoop recognize wlCopyOk rest (daemonStop st)
        | .item path fileExists =>
            let (st1, effs) := workerStep recognize wlCopyOk now st
              (.item path fileExists)
            let (st2, effs2) := mainLoop recognize wlCopyOk rest st1
            (st2, effs ++ effs2)
        | .timeout =>
            mainLoop recognize wlCopyOk rest (check_idle now st)
      else (st, [])

/-- Result of one `DuskySTTDaemon.start` execution (after startup). -/
structure RunResult where
  finalState : DaemonState
  finalFs : FsState
  effects : List Effect
  fsOps : List FsOp
  cleanupRuns : Nat
deriving DecidableEq, Repr

/-- `DuskySTTDaemon.start` after startup: run the worker loop under
`try:`, then — `finally:` — run `cleanup` exactly once (however many
stop signals the trace contains). -/
def runStart (recognize : PyStr → InferOutcome) (wlCopyOk : Bool)
    (evs : List (Int × LoopEvent)) (st : DaemonState) (fs : FsState) :
    RunResult :=
  let (st1, effs) := mainLoop recognize wlCopyOk evs st
  let (st2, fs2, ops) := cleanup st1 fs
  ⟨st2, fs2, effs, ops, 1⟩

/-- The startup actions of `DuskySTTDaemon.start` (lines before the
worker loop), in program order. -/
inductive StartAction where
  | installHandlers : StartAction
  | writePid : StartAction
  | removeStaleNonFifo : StartAction
  | startListener : StartAction
  | touchReady : StartAction
deriving DecidableEq, Repr

/-- The ordered action sequence performed by `DuskySTTDaemon.start`
before entering the worker loop: install the SIGTERM/SIGINT handlers,
write the PID file, unlink `FIFO_PATH` when it exists but is not a fifo,
start the `FifoReader` thread, then `READY_FILE.touch()`. -/
def startSequence (fifoPathExists fifoPathIsFifo : Bool) : List StartAction :=
  [StartAction.installHandlers, StartAction.writePid] ++
  (if fifoPathExists ∧ ¬fifoPathIsFifo then [StartAction.removeStaleNonFifo]
   else []) ++
  [StartAction.startListener, StartAction.touchReady]

/-! ## Shared invariants of the bounded queue -/

/-- In every reachable queue state the buffer holds at most
`QUEUE_SIZE` items (a `put` is only enabled below capacity). -/
theorem reachable_buf_length_le (s : QueueState) (h : ReachableQ s) :
    s.buf.length ≤ QUEUE_SIZE := by
  induction h with
  | init => simp [QUEUE_SIZE]
  | put s x _ hlt _ =>
      simp only [qput, List.length_append, List.length_cons, List.length_nil]
      omega
  | get s x rest _ hbuf ih =>
      rw [hbuf] at ih
      simp only [qget] at *
      simp only [List.length_cons] at ih
      omega

/-! ## Claims -/

/-- C1: for every sequence of paths enqueued into the bounded queue, the
worker dequeues them in exactly the order they were enqueued: in every
reachable queue state the dequeue history followed by the current buffer
equals the enqueue history, so the processed sequence is always a prefix
of the enqueued sequence with no reordering or priority. -/
theorem fifo_processing_order (s : QueueState) (h : ReachableQ s) :
    s.deq ++ s.buf = s.enq := by
  induction h with
  | init => rfl
  | put s x _ _ ih =>
      simp only [qput]
      rw [← List.append_assoc, ih]
  | get s x rest _ hbuf ih =>
      rw [hbuf] at ih
      simp only [qget]
      rw [List.append_assoc]
      simpa using ih

/-- Witness for C1: after enqueuing `/tmp/a.wav` then `/tmp/b.wav` and
dequeuing once, the dequeue history plus buffer equals the enqueue
history. -/
theorem fifo_processing_order_witness :
    (qget (qput (qput ⟨[], [], []⟩ "/tmp/a.wav".data) "/tmp/b.wav".data)
        "/tmp/a.wav".data ["/tmp/b.wav".data]).deq ++
      (qget (qput (qput ⟨[], [], []⟩ "/tmp/a.wav".data) "/tmp/b.wav".data)
        "/tmp/a.wav".data ["/tmp/b.wav".data]).buf =
      (qget (qput (qput ⟨[], [], []⟩ "/tmp/a.wav".data) "/tmp/b.wav".data)
        "/tmp/a.wav".data ["/tmp/b.wav".data]).enq :=
  fifo_processing_order _
    (ReachableQ.get _ _ _
      (ReachableQ.put _ _
        (ReachableQ.put _ _ ReachableQ.init (by decide)) (by decide))
      (by decide))

/-- C6: the queue never holds more than `QUEUE_SIZE = 5` items, and a
`put` attempted while the queue is full does not go through (the
producer blocks until a slot frees: `tryPut` yields no new buffer). -/
theorem queue_bounded_blocks_when_full (s : QueueState) (x : PyStr)
    (h : ReachableQ s) :
    s.buf.length ≤ QUEUE_SIZE ∧
      (s.buf.length = QUEUE_SIZE → tryPut s.buf x = none) := by
  refine ⟨reachable_buf_length_le s h, fun hfull => ?_⟩
  simp [tryPut, hfull]

/-- Witness for C6: a queue filled with five items is at the bound, and a
sixth `put` is blocked. -/
theorem queue_bounded_blocks_when_full_witness :
    (qput (qput (qput (qput (qput ⟨[], [], []⟩ "/tmp/1.wav".data)
        "/tmp/2.wav".data) "/tmp/3.wav".data) "/tmp/4.wav".data)
        "/tmp/5.wav".data).buf.length ≤ QUEUE_SIZE ∧
      ((qput (qput (qput (qput (qput ⟨[], [], []⟩ "/tmp/1.wav".data)
          "/tmp/2.wav".data) "/tmp/3.wav".data) "/tmp/4.wav".data)
          "/tmp/5.wav".data).buf.length = QUEUE_SIZE →
        tryPut (qput (qput (qput (qput (qput ⟨[], [], []⟩ "/tmp/1.wav".data)
          "/tmp/2.wav".data) "/tmp/3.wav".data) "/tmp/4.wav".data)
          "/tmp/5.wav".data).buf "/tmp/6.wav".data = none) :=
  queue_bounded_blocks_when_full _ _
    (ReachableQ.put _ _
      (ReachableQ.put _ _
        (ReachableQ.put _ _
          (ReachableQ.put _ _
            (ReachableQ.put _ _ ReachableQ.init (by decide)) (by decide))
          (by decide))
        (by decide))
      (by decide))

/-- C4: a dequeued work item whose file no longer exists is silently
discarded: the worker-loop iteration leaves the daemon state unchanged
and produces no effect at all — no model load, no inference invocation,
no notification. -/
theorem missing_file_silently_discarded
    (recognize : PyStr → InferOutcome) (wlCopyOk : Bool) (now : Int)
    (st : DaemonState) (path : PyStr) :
    workerStep recognize wlCopyOk now st (WorkerEvent.item path false) =
      (st, []) := rfl

/-- C9: startup performs, in order: install the termination signal
handlers, write the PID marker, remove a stale non-pipe file occupying
the pipe path (exactly when one is present), start the pipe listener,
and only after the listener has been started create the readiness
marker — in every case the readiness-marker creation is the action
immediately following the listener start, at the end of the sequence. -/
theorem startup_action_order (fifoPathExists fifoPathIsFifo : Bool) :
    startSequence true false =
      [StartAction.installHandlers, StartAction.writePid,
       StartAction.removeStaleNonFifo, StartAction.startListener,
       StartAction.touchReady] ∧
    ∃ pre, startSequence fifoPathExists fifoPathIsFifo =
      pre ++ [StartAction.startListener, StartAction.touchReady] := by
  refine ⟨by decide, ?_⟩
  cases fifoPathExists <;> cases fifoPathIsFifo <;>
    first
      | exact ⟨[StartAction.installHandlers, StartAction.writePid],
          by decide⟩
      | exact ⟨[StartAction.installHandlers, StartAction.writePid,
          StartAction.removeStaleNonFifo], by decide⟩

/-- A recognizer whose invocation always raises. -/
def recRaise : PyStr → InferOutcome := fun _ =>
  InferOutcome.exn "CUDA error".data

/-- A recognizer returning an empty list of alternatives. -/
def recEmptyList : PyStr → InferOutcome := fun _ =>
  InferOutcome.ok (RecResult.list [])

/-- A recognizer returning a whitespace-only transcription. -/
def recBlank : PyStr → InferOutcome := fun _ =>
  InferOutcome.ok (RecResult.str "  ".data)

/-- C2: if the inference invocation inside `transcribe` raises, then
exactly one critical-severity notification is emitted, the model
reference is absent afterwards, the `running` flag is untouched (the
worker loop goes on to the next item, the daemon does not exit), and the
next model acquisition performs a fresh load. -/
theorem inference_failure_recovery
    (recognize : PyStr → InferOutcome) (wlCopyOk : Bool) (now now2 : Int)
    (st : DaemonState) (path msg : PyStr)
    (h : recognize path = InferOutcome.exn msg) :
    ((transcribe recognize wlCopyOk now st path).2.filter
        Effect.isCritNotification).length = 1 ∧
    (transcribe recognize wlCopyOk now st path).1.model = false ∧
    (transcribe recognize wlCopyOk now st path).1.running = st.running ∧
    (get_model now2 (transcribe recognize wlCopyOk now st path).1).2 =
      [Effect.loadModel] := by
  cases hm : st.model <;>
    simp [transcribe, get_model, h, hm, Effect.isCritNotification]

/-- Witness for C2: a raising recognizer on a fresh daemon state yields
one critical notification, an unloaded model, an unchanged `running`
flag, and a fresh load on the next acquisition. -/
theorem inference_failure_recovery_witness :
    ((transcribe recRaise true 0 initState "/tmp/a.wav".data).2.filter
        Effect.isCritNotification).length = 1 ∧
    (transcribe recRaise true 0 initState "/tmp/a.wav".data).1.model = false ∧
    (transcribe recRaise true 0 initState "/tmp/a.wav".data).1.running =
      initState.running ∧
    (get_model 1 (transcribe recRaise true 0 initState
        "/tmp/a.wav".data).1).2 = [Effect.loadModel] :=
  inference_failure_recovery recRaise true 0 1 initState
    "/tmp/a.wav".data "CUDA error".data rfl

/-- C3: every `get_model` acquisition stamps `last_used` with the current
time; when the model is loaded and more than `IDLE_TIMEOUT` has passed
since `last_used`, `check_idle` releases it, a second `check_idle` is a
no-op (released exactly once), and the next acquisition performs exactly
one fresh load (the acquisition after that loads nothing). -/
theorem acquire_idle_release_reload (now now2 now3 now4 : Int)
    (st : DaemonState) (hm : st.model = true)
    (hidle : now - st.last_used > IDLE_TIMEOUT) :
    (∀ (t : Int) (s : DaemonState), ((get_model t s).1).last_used = t) ∧
    (check_idle now st).model = false ∧
    check_idle now2 (check_idle now st) = check_idle now st ∧
    (get_model now3 (check_idle now st)).2 = [Effect.loadModel] ∧
    (get_model now4 ((get_model now3 (check_idle now st)).1)).2 = [] := by
  have hrel : check_idle now st = { st with model := false } := by
    simp [check_idle, hm, hidle]
  refine ⟨?_, ?_, ?_, ?_, ?_⟩
  · intro t s
    cases hs : s.model <;> simp [get_model, hs]
  · rw [hrel]
  · rw [hrel]; simp [check_idle]
  · rw [hrel]; simp [get_model]
  · rw [hrel]; simp [get_model]

/-- Witness for C3: a daemon holding the model last used at time 0,
checked at time 11 (more than 10 seconds idle), releases it; the release
is not repeated, and times 12 and 13 see exactly one reload. -/
theorem acquire_idle_release_reload_witness :
    (∀ (t : Int) (s : DaemonState), ((get_model t s).1).last_used = t) ∧
    (check_idle 11 ⟨true, true, 0, true⟩).model = false ∧
    check_idle 12 (check_idle 11 ⟨true, true, 0, true⟩) =
      check_idle 11 ⟨true, true, 0, true⟩ ∧
    (get_model 12 (check_idle 11 ⟨true, true, 0, true⟩)).2 =
      [Effect.loadModel] ∧
    (get_model 13 ((get_model 12 (check_idle 11
        ⟨true, true, 0, true⟩)).1)).2 = [] :=
  acquire_idle_release_reload 11 12 12 13 ⟨true, true, 0, true⟩ rfl
    (by decide)

/-- C7: when the inference result normalizes (first element of a list, or
the string itself, stripped) to the empty transcription, `transcribe`
sends nothing downstream: its effect trace has no notification and no
clipboard output. -/
theorem empty_transcription_noop
    (recognize : PyStr → InferOutcome) (wlCopyOk : Bool) (now : Int)
    (st : DaemonState) (path : PyStr) (res : RecResult)
    (hres : recognize path = InferOutcome.ok res)
    (hempty : extractText res = some []) :
    ((transcribe recognize wlCopyOk now st path).2.filter
        Effect.isNotification) = [] ∧
    ((transcribe recognize wlCopyOk now st path).2.filter
        Effect.isOutputEff) = [] := by
  cases hm : st.model <;>
    simp [transcribe, get_model, hres, hempty, hm, Effect.isNotification,
      Effect.isOutputEff]

/-- Witness for C7: a whitespace-only recognition result produces neither
a notification nor a clipboard output. -/
theorem empty_transcription_noop_witness :
    ((transcribe recBlank true 0 initState "/tmp/a.wav".data).2.filter
        Effect.isNotification) = [] ∧
    ((transcribe recBlank true 0 initState "/tmp/a.wav".data).2.filter
        Effect.isOutputEff) = [] :=
  empty_transcription_noop recBlank true 0 initState "/tmp/a.wav".data
    (RecResult.str "  ".data) rfl (by decide)

/-- C10: an inference call returning an empty list takes the failure
path, not the no-speech no-op: the `res[0]` indexing raises, one
critical notification is sent, the model is marked unloaded and nothing
is output — while a whitespace-only string result is the silent no-op
(no notification at all). -/
theorem empty_list_failure_not_noop
    (recognize : PyStr → InferOutcome) (wlCopyOk : Bool) (now : Int)
    (st : DaemonState) (path : PyStr)
    (h : recognize path = InferOutcome.ok (RecResult.list [])) :
    ((transcribe recognize wlCopyOk now st path).2.filter
        Effect.isCritNotification).length = 1 ∧
    (transcribe recognize wlCopyOk now st path).1.model = false ∧
    ((transcribe recognize wlCopyOk now st path).2.filter
        Effect.isOutputEff) = [] ∧
    (∀ (recognize2 : PyStr → InferOutcome) (s : PyStr),
      pyStrip s = [] →
      recognize2 path = InferOutcome.ok (RecResult.str s) →
      ((transcribe recognize2 wlCopyOk now st path).2.filter
          Effect.isNotification) = []) := by
  refine ⟨?_, ?_, ?_, ?_⟩
  · cases hm : st.model <;>
      simp [transcribe, get_model, h, extractText, hm,
        Effect.isCritNotification]
  · cases hm : st.model <;>
      simp [transcribe, get_model, h, extractText, hm]
  · cases hm : st.model <;>
      simp [transcribe, get_model, h, extractText, hm, Effect.isOutputEff]
  · intro recognize2 s hs h2
    cases hm : st.model <;>
      simp [transcribe, get_model, h2, extractText, hs, hm,
        Effect.isNotification]

/-- Witness for C10: the empty-list result yields one critical
notification, an unloaded model and no output, while the
whitespace-only string result yields no notification. -/
theorem empty_list_failure_not_noop_witness :
    ((transcribe recEmptyList true 0 initState "/tmp/a.wav".data).2.filter
        Effect.isCritNotification).length = 1 ∧
    (transcribe recEmptyList true 0 initState
        "/tmp/a.wav".data).1.model = false ∧
    ((transcribe recEmptyList true 0 initState "/tmp/a.wav".data).2.filter
        Effect.isOutputEff) = [] ∧
    ((transcribe recBlank true 0 initState "/tmp/a.wav".data).2.filter
        Effect.isNotification) = [] :=
  let h := empty_list_failure_not_noop recEmptyList true 0 initState
    "/tmp/a.wav".data rfl
  ⟨h.1, h.2.1, h.2.2.1, h.2.2.2 recBlank "  ".data (by decide) rfl⟩

/-- The enqueue loop of `FifoReader.run` is strip-then-drop-empties over
the split lines, preserving order. -/
theorem filterMap_strip_eq (ls : List PyStr) :
    (ls.filterMap fun pathStr =>
        let cleanPath := pyStrip pathStr
        if cleanPath ≠ [] then some cleanPath else none) =
      (ls.map pyStrip).filter (fun c => c ≠ []) := by
  induction ls with
  | nil => rfl
  | cons p ps ih =>
      by_cases hc : pyStrip p = [] <;>
        simp [List.filterMap_cons, List.filter_cons, hc] at ih ⊢ <;>
        exact ih

/-- C5: the pipe listener splits each drained buffer on newlines, strips
each line, drops the (whitespace-)empty ones and enqueues the remaining
paths in order; the single write `"/tmp/a.wav\n/tmp/b.wav\n"` enqueues
exactly `/tmp/a.wav` then `/tmp/b.wav`, and a whitespace-only line
enqueues nothing. -/
theorem pipe_buffer_parsing (data : PyStr) :
    enqueuedPaths data =
      ((pySplitlines data).map pyStrip).filter (fun c => c ≠ []) ∧
    enqueuedPaths "/tmp/a.wav\n/tmp/b.wav\n".data =
      ["/tmp/a.wav".data, "/tmp/b.wav".data] ∧
    enqueuedPaths " \t \x0b \n".data = [] :=
  ⟨filterMap_strip_eq (pySplitlines data), by decide, by decide⟩

/-- C8: stopping the daemon is idempotent and `cleanup` is safe and
single-shot: `stop` twice equals `stop` once (a pure flag flip, no
error), one `start` execution runs `cleanup` exactly once however many
stop signals arrive, a run removes each of the pipe, PID marker and
readiness marker at most once, cleaning up with all files already absent
removes nothing (tolerated, no error), and a second `cleanup` after a
first removes nothing. -/
theorem stop_idempotent_cleanup_once
    (recognize : PyStr → InferOutcome) (wlCopyOk : Bool)
    (evs : List (Int × LoopEvent)) (st st2 : DaemonState) (fs : FsState) :
    daemonStop (daemonStop st2) = daemonStop st2 ∧
    (runStart recognize wlCopyOk evs st fs).cleanupRuns = 1 ∧
    (runStart recognize wlCopyOk evs st fs).fsOps.count FsOp.unlinkFifo ≤ 1 ∧
    (runStart recognize wlCopyOk evs st fs).fsOps.count FsOp.unlinkPid ≤ 1 ∧
    (runStart recognize wlCopyOk evs st fs).fsOps.count FsOp.unlinkReady ≤ 1 ∧
    (cleanup st2 ⟨false, false, false⟩).2.2 = [] ∧
    (cleanup (cleanup st2 fs).1 (cleanup st2 fs).2.1).2.2 = [] := by
  rcases hms : mainLoop recognize wlCopyOk evs st with ⟨st1, effs⟩
  rcases fs with ⟨f, p, r⟩
  refine ⟨rfl, ?_, ?_, ?_, ?_, rfl, rfl⟩ <;>
    cases f <;> cases p <;> cases r <;>
      simp [runStart, hms, cleanup, List.count_cons]

end Dusky
